import Mathlib

/-!
Verification of the scan-and-classify engine of the tag_test repository
(src/main.rs) against its natural-language specification.

The embedding models:
  * the extension classifier on line 121 of main.rs
    (`f_name.split(".").last().unwrap_or("NONE").to_lowercase()`),
  * the validity test on line 128 (`config.types.valid.iter().any(|t| t == &f_ext)`),
  * the metadata-extraction adapter `read_metadata` (lines 156-208), with the
    external lofty probe outcome supplied as data, and the `unwrap()` calls on
    artist/album modelled as an explicit panic outcome,
  * the traversal/statistics loop `scan_dirs` (lines 93-154), with the walker
    output supplied as a list of entries (the walker itself is an external
    collaborator per the spec).

Strings are modelled as lists of characters; Rust `to_lowercase` is modelled
per character by `Char.toLower` (ASCII case mapping, which covers every string
appearing in the claims).
-/

namespace TagTest

abbrev Str := List Char

/-- TrackInfo record built by read_metadata (main.rs lines 13-20).
Duration is opaque to all claims and kept as a number. -/
structure TrackInfo where
  title : Str
  artist : Str
  album : Str
  genre : Str
  track : Nat
  duration : Nat
deriving DecidableEq

/-- Classification of lofty errors as far as the core distinguishes them:
the FakeTag error constructed on line 168, and every other codec-level error. -/
inductive LoftyError
  | fakeTag
  | codec
deriving DecidableEq

/-- A primary tag set as exposed by the external tag-reading capability:
each field is optionally present. -/
structure MusicTag where
  title : Option Str
  artist : Option Str
  album : Option Str
  genre : Option Str
  track : Option Nat
deriving DecidableEq

/-- Result of a successful probe-and-read: an optional primary tag plus
audio properties (duration). -/
structure TaggedFile where
  primary_tag : Option MusicTag
  duration : Nat
deriving DecidableEq

/-- Outcome of `Probe::open(path)?.read()` for one path, supplied as data:
either an error propagated from the probe/read, or a tagged file. -/
inductive ProbeOutcome
  | readErr (e : LoftyError)
  | readOk (tf : TaggedFile)
deriving DecidableEq

/-- Outcome of read_metadata: the Rust function returns
`Result<TrackInfo, LoftyError>` but can also panic (process abort) via the
`unwrap()` calls on lines 201-202; the panic is modelled explicitly. -/
inductive MetaResult
  | ok (t : TrackInfo)
  | err (e : LoftyError)
  | panicked
deriving DecidableEq

/-- read_metadata (main.rs lines 156-208): propagate probe/read errors; fail
with FakeTag when no primary tag exists; default title/genre to the empty
string and track to 0 when absent; `unwrap()` artist and album (panic when
absent); package the TrackInfo. -/
def read_metadata (pr : ProbeOutcome) : MetaResult :=
  match pr with
  | .readErr e => .err e
  | .readOk tagged_file =>
    match tagged_file.primary_tag with
    | none => .err .fakeTag
    | some tag =>
      let t_title := tag.title.getD []
      let t_genre := tag.genre.getD []
      let t_track := tag.track.getD 0
      match tag.artist with
      | none => .panicked
      | some t_artist =>
        match tag.album with
        | none => .panicked
        | some t_album =>
          .ok { title := t_title, artist := t_artist, album := t_album,
                genre := t_genre, track := t_track,
                duration := tagged_file.duration }

/-- Helper for splitDot: prepend a character to the first segment
(or start a first segment when there is none). -/
def consHead (c : Char) : List Str → List Str
  | [] => [[c]]
  | s :: ss => (c :: s) :: ss

/-- Rust `str::split(".")`: the list of segments of the name between
occurrences of the dot, empty segments included; never empty
(the empty string splits into one empty segment). -/
def splitDot : Str → List Str
  | [] => [[]]
  | c :: cs => if c = '.' then [] :: splitDot cs else consHead c (splitDot cs)

/-- The extension classifier on main.rs line 121:
`f_name.split(".").last().unwrap_or("NONE").to_lowercase()`. -/
def classify (f_name : Str) : Str :=
  ((splitDot f_name).getLastD (['N', 'O', 'N', 'E'])).map Char.toLower

/-- The validity test on main.rs line 128:
`config.types.valid.iter().any(|t| t == &f_ext)`. -/
def isValidExt (valid : List Str) (f_ext : Str) : Bool :=
  valid.any (fun t => t == f_ext)

/-- The statistics accumulator (main.rs lines 44-50); the HashMap is modelled
as an association list with unique keys. -/
structure ScanStats where
  other_files : Nat
  directories : Nat
  error_files : Nat
  valid_files : Nat
  found_types : List (Str × Nat)
deriving DecidableEq

/-- `found_types.entry(ext).and_modify(|e| *e += 1).or_insert(1)`
(main.rs lines 122-126) on the association-list model. -/
def bumpType : List (Str × Nat) → Str → List (Str × Nat)
  | [], k => [(k, 1)]
  | (k0, v) :: rest, k =>
    if k0 = k then (k0, v + 1) :: rest else (k0, v) :: bumpType rest k

/-- One directory entry as yielded by the walker: a directory, or a file
carrying its name (for classification) and the probe outcome the external
tag reader produces at its path. -/
inductive Entry
  | dir
  | file (f_name : Str) (probe : ProbeOutcome)
deriving DecidableEq

/-- The zero-initialised statistics (main.rs lines 94-100). -/
def initStats : ScanStats :=
  { other_files := 0, directories := 0, error_files := 0, valid_files := 0,
    found_types := [] }

/-- The body of the entry loop of scan_dirs (main.rs lines 108-151) for a
single entry. Returns none when read_metadata panics, in which case the
whole process aborts. -/
def processEntry (valid : List Str) (estimate : Bool) (s : ScanStats) :
    Entry → Option ScanStats
  | .dir => some { s with directories := s.directories + 1 }
  | .file f_name probe =>
    let f_ext := classify f_name
    let s1 := { s with found_types := bumpType s.found_types f_ext }
    if isValidExt valid f_ext then
      if estimate then some { s1 with valid_files := s1.valid_files + 1 }
      else
        match read_metadata probe with
        | .ok _ => some { s1 with valid_files := s1.valid_files + 1 }
        | .err _ => some { s1 with error_files := s1.error_files + 1 }
        | .panicked => none
    else some { s1 with other_files := s1.other_files + 1 }

/-- The entry loop of scan_dirs starting from an intermediate state. -/
def scanFrom (valid : List Str) (estimate : Bool) :
    ScanStats → List Entry → Option ScanStats
  | s, [] => some s
  | s, e :: es =>
    match processEntry valid estimate s e with
    | none => none
    | some s1 => scanFrom valid estimate s1 es

/-- scan_dirs (main.rs lines 93-154): one pass over the concatenated walker
output of all configured roots, threading the statistics; none when the pass
aborts through a read_metadata panic. -/
def scan_dirs (valid : List Str) (entries : List Entry) (estimate : Bool) :
    Option ScanStats :=
  scanFrom valid estimate initStats entries

/-- Whether an entry is a file (non-directory) entry. -/
def isFile : Entry → Bool
  | .dir => false
  | .file _ _ => true

/-- Number of file (non-directory) entries in a walker output. -/
def countFiles (es : List Entry) : Nat := (es.filter isFile).length

/-- Total of all per-extension counts in the accumulator map. -/
def sumCounts (m : List (Str × Nat)) : Nat := (m.map Prod.snd).sum

/-! Basic facts about the classifier. -/

lemma consHead_ne_nil (c : Char) (l : List Str) : consHead c l ≠ [] := by
  cases l <;> simp [consHead]

lemma splitDot_ne_nil (cs : Str) : splitDot cs ≠ [] := by
  induction cs with
  | nil => simp [splitDot]
  | cons c cs ih =>
    by_cases h : c = '.'
    · simp [splitDot, h]
    · simp [splitDot, h, consHead_ne_nil]

lemma splitDot_of_not_mem (cs : Str) (h : '.' ∉ cs) : splitDot cs = [cs] := by
  induction cs with
  | nil => rfl
  | cons c cs ih =>
    simp only [List.mem_cons, not_or] at h
    rw [splitDot, if_neg (fun hc => h.1 hc.symm), ih h.2]
    rfl

lemma two_le_splitDot_length (cs : Str) (h : '.' ∈ cs) :
    2 ≤ (splitDot cs).length := by
  induction cs with
  | nil => simp at h
  | cons c cs ih =>
    by_cases hc : c = '.'
    · rw [splitDot, if_pos hc]
      cases hsp : splitDot cs with
      | nil => exact absurd hsp (splitDot_ne_nil cs)
      | cons s ss => simp
    · have hmem : '.' ∈ cs := by
        rcases List.mem_cons.mp h with h1 | h2
        · exact absurd h1.symm hc
        · exact h2
      rw [splitDot, if_neg hc]
      cases hsp : splitDot cs with
      | nil => exact absurd hsp (splitDot_ne_nil cs)
      | cons s ss =>
        have h2 := ih hmem
        rw [hsp] at h2
        simp only [List.length_cons] at h2
        simp only [consHead, List.length_cons]
        omega

lemma getLastD_congr {α : Type} (l : List α) (h : l ≠ []) (d1 d2 : α) :
    l.getLastD d1 = l.getLastD d2 := by
  cases l with
  | nil => exact absurd rfl h
  | cons a as => rw [List.getLastD_cons, List.getLastD_cons]

lemma getLastD_splitDot_append (a : Str) :
    ∀ (b : Str), '.' ∉ b → ∀ (d : Str), (splitDot (a ++ '.' :: b)).getLastD d = b := by
  induction a with
  | nil =>
    intro b hb d
    rw [List.nil_append, splitDot, if_pos rfl, splitDot_of_not_mem b hb,
        List.getLastD_cons, List.getLastD_cons]
    rfl
  | cons c a ih =>
    intro b hb d
    rw [List.cons_append, splitDot]
    by_cases hc : c = '.'
    · rw [if_pos hc, List.getLastD_cons]
      exact ih b hb _
    · rw [if_neg hc]
      have hmem : '.' ∈ a ++ '.' :: b := by simp
      have hlen := two_le_splitDot_length _ hmem
      cases hsp : splitDot (a ++ '.' :: b) with
      | nil => exact absurd hsp (splitDot_ne_nil _)
      | cons s ss =>
        rw [hsp] at hlen
        cases ss with
        | nil => simp at hlen
        | cons s2 ss2 =>
          have h1 := ih b hb d
          rw [hsp, List.getLastD_cons, List.getLastD_cons] at h1
          simp only [consHead]
          rw [List.getLastD_cons, List.getLastD_cons]
          exact h1

lemma isUpper_toLower (c : Char) : (Char.toLower c).isUpper = false := by
  rw [Char.toLower]
  by_cases h : c.toNat ≥ 65 ∧ c.toNat ≤ 90
  · rw [if_pos h]
    have hval : (Char.ofNat (Char.toNat c + 32)).toNat = Char.toNat c + 32 := by
      rw [Char.ofNat, dif_pos (Or.inl (by omega : Char.toNat c + 32 < 0xd800))]
      rfl
    have hnle : ¬ (Char.ofNat (Char.toNat c + 32)).val ≤ (90 : UInt32) := by
      intro hle
      have h2 := UInt32.toNat_le_of_le (by decide : (90 : Nat) < UInt32.size) hle
      rw [show ((Char.ofNat (Char.toNat c + 32)).val.toNat) =
            (Char.ofNat (Char.toNat c + 32)).toNat from rfl, hval] at h2
      omega
    simp only [Char.isUpper, ge_iff_le, Bool.and_eq_false_iff, decide_eq_false_iff_not]
    right
    exact hnle
  · rw [if_neg h]
    simp only [Char.isUpper, ge_iff_le, Bool.and_eq_false_iff, decide_eq_false_iff_not]
    by_cases h1 : (65 : UInt32) ≤ c.val
    · right
      intro h2
      exact h ⟨UInt32.le_toNat_of_le (by decide) h1, UInt32.toNat_le_of_le (by decide) h2⟩
    · left
      exact h1

/-! Claims about the extension classifier. -/

/-- Claim C2 counterexample: the spec says a filename with no dot separator
classifies to the sentinel "none", but the code returns the lowercased whole
name, because Rust split always yields at least one segment:
classify "noext" is "noext", not "none". -/
theorem classify_noext_counterexample :
    classify "noext".toList = "noext".toList ∧
    classify "noext".toList ≠ "none".toList := by
  decide

/-- Claim C2 (amended): for every filename containing no dot, the classifier
returns the lowercased whole filename; the "NONE" fallback is never taken. -/
theorem classify_no_dot_amended (cs : Str) (h : '.' ∉ cs) :
    classify cs = cs.map Char.toLower := by
  rw [classify, splitDot_of_not_mem cs h, List.getLastD_cons]
  rfl

/-- Witness for classify_no_dot_amended at the concrete input "noext". -/
theorem classify_no_dot_amended_witness :
    classify "noext".toList = ("noext".toList).map Char.toLower :=
  classify_no_dot_amended ("noext".toList) (by decide)

/-- Claim C3 counterexample: the spec says a leading-dot filename with no
further dot classifies to the empty string, but the code splits ".gitignore"
into the segments "" and "gitignore" and takes the last:
classify ".gitignore" is "gitignore", not "". -/
theorem classify_gitignore_counterexample :
    classify ".gitignore".toList = "gitignore".toList ∧
    classify ".gitignore".toList ≠ [] := by
  decide

/-- Claim C3 (amended): for a filename made of a leading dot followed by a
dot-free remainder, the classifier returns the lowercased remainder, so the
result is empty only when the remainder is empty (the filename "."). -/
theorem classify_leading_dot_amended (cs : Str) (h : '.' ∉ cs) :
    classify ('.' :: cs) = cs.map Char.toLower := by
  rw [classify, splitDot, if_pos rfl, splitDot_of_not_mem cs h,
      List.getLastD_cons, List.getLastD_cons]
  rfl

/-- Witness for classify_leading_dot_amended at the concrete input
".gitignore". -/
theorem classify_leading_dot_amended_witness :
    classify ('.' :: "gitignore".toList) = ("gitignore".toList).map Char.toLower :=
  classify_leading_dot_amended ("gitignore".toList) (by decide)

/-- Claim C8: the classifier lowercases the key, and when the filename
contains a dot only the final segment is used:
classify "song.MP3" is "mp3" and classify "archive.tar.gz" is "gz". -/
theorem classify_lowercases_last_segment (a b cs : Str) (hb : '.' ∉ b) :
    classify (a ++ '.' :: b) = b.map Char.toLower ∧
    (∀ c ∈ classify cs, c.isUpper = false) ∧
    classify "song.MP3".toList = "mp3".toList ∧
    classify "archive.tar.gz".toList = "gz".toList := by
  refine ⟨?_, ?_, by decide, by decide⟩
  · rw [classify, getLastD_splitDot_append a b hb]
  · intro c hc
    rw [classify] at hc
    rcases List.mem_map.mp hc with ⟨c0, _, rfl⟩
    exact isUpper_toLower c0

/-- Witness for classify_lowercases_last_segment at the concrete split of
"song.MP3" into "song" and "MP3". -/
theorem classify_lowercases_last_segment_witness :
    classify ("song".toList ++ '.' :: "MP3".toList) = ("MP3".toList).map Char.toLower ∧
    classify "archive.tar.gz".toList = "gz".toList :=
  ⟨(classify_lowercases_last_segment ("song".toList) ("MP3".toList) [] (by decide)).1,
   (classify_lowercases_last_segment ("song".toList) ("MP3".toList) [] (by decide)).2.2.2⟩

/-- Claim C9: splitting a filename on the dot always yields at least one
segment, so the "NONE" fallback passed to unwrap_or is unreachable (the
classifier result does not depend on the fallback value); the key is the
lowercased final segment, the whole lowercased name when no dot is present,
and the sentinel "none" arises only when the lowercased final segment itself
is "none". -/
theorem classify_fallback_unreachable (cs : Str) :
    splitDot cs ≠ [] ∧
    (∀ d, classify cs = ((splitDot cs).getLastD d).map Char.toLower) ∧
    ('.' ∉ cs → classify cs = cs.map Char.toLower) ∧
    (classify cs = "none".toList →
      ((splitDot cs).getLastD []).map Char.toLower = "none".toList) := by
  refine ⟨splitDot_ne_nil cs, ?_, ?_, ?_⟩
  · intro d
    rw [classify, getLastD_congr _ (splitDot_ne_nil cs) _ d]
  · intro h
    rw [classify, splitDot_of_not_mem cs h, List.getLastD_cons]
    rfl
  · intro h
    rw [← h, classify,
        getLastD_congr _ (splitDot_ne_nil cs) ([]) (['N', 'O', 'N', 'E'])]

/-- Witness for classify_fallback_unreachable at the concrete input "tar". -/
theorem classify_fallback_unreachable_witness :
    splitDot "tar".toList ≠ [] ∧
    classify "tar".toList = ("tar".toList).map Char.toLower :=
  ⟨(classify_fallback_unreachable ("tar".toList)).1,
   (classify_fallback_unreachable ("tar".toList)).2.2.1 (by decide)⟩

/-- Claim C10: the validity test is an exact string-equality membership test
of the lowercased extension key in the configured list, so a configured entry
containing an uppercase letter never matches any file. -/
theorem valid_match_exact (valid : List Str) (f_name t : Str) :
    ((∃ c ∈ t, c.isUpper = true) → t ≠ classify f_name) ∧
    (isValidExt valid (classify f_name) = true ↔
      ∃ u ∈ valid, u = classify f_name) := by
  constructor
  · rintro ⟨c, hct, hcu⟩ heq
    subst heq
    rw [classify] at hct
    rcases List.mem_map.mp hct with ⟨c0, _, rfl⟩
    rw [isUpper_toLower c0] at hcu
    exact Bool.false_ne_true hcu
  · rw [isValidExt, List.any_eq_true]
    constructor
    · rintro ⟨u, hu, hb⟩
      exact ⟨u, hu, by simpa using hb⟩
    · rintro ⟨u, hu, he⟩
      exact ⟨u, hu, by simpa using he⟩

/-- Witness for valid_match_exact: the uppercase entry "MP3" does not match
the file "song.MP3", whose key is the lowercase "mp3". -/
theorem valid_match_exact_witness :
    "MP3".toList ≠ classify "song.MP3".toList :=
  (valid_match_exact ["mp3".toList] ("song.MP3".toList) ("MP3".toList)).1 (by decide)

/-! Claim about the metadata extraction adapter. -/

/-- Claim C1: the code contradicts the claim. On a file whose tag set is
present but lacks the artist tag (or the album tag), read_metadata reaches the
unwrap calls of main.rs lines 201-202 and panics, aborting the whole process,
instead of defaulting the field to the empty string as the title/genre
handling does and as the spec requires. -/
theorem read_metadata_panics_on_missing_artist :
    read_metadata (ProbeOutcome.readOk
      { primary_tag := some { title := some ("t".toList), artist := none,
                              album := some ("b".toList),
                              genre := some ("g".toList), track := none },
        duration := 60 }) = MetaResult.panicked ∧
    read_metadata (ProbeOutcome.readOk
      { primary_tag := some { title := some ("t".toList),
                              artist := some ("a".toList), album := none,
                              genre := none, track := some 3 },
        duration := 60 }) = MetaResult.panicked :=
  ⟨rfl, rfl⟩

/-! Counting lemmas for the scan loop. -/

lemma countFiles_cons (e : Entry) (es : List Entry) :
    countFiles (e :: es) = (if isFile e then 1 else 0) + countFiles es := by
  by_cases h : isFile e
  · simp [countFiles, List.filter_cons, h]
    omega
  · simp [countFiles, List.filter_cons, h]

lemma sumCounts_bumpType (m : List (Str × Nat)) (k : Str) :
    sumCounts (bumpType m k) = sumCounts m + 1 := by
  induction m with
  | nil => rfl
  | cons p rest ih =>
    obtain ⟨k0, v⟩ := p
    by_cases h : k0 = k
    · simp [bumpType, h, sumCounts]
      omega
    · simp only [bumpType, if_neg h, sumCounts, List.map_cons, List.sum_cons]
      simp only [sumCounts] at ih
      omega

lemma processEntry_step (valid : List Str) (est : Bool) (s s2 : ScanStats)
    (e : Entry) (h : processEntry valid est s e = some s2) :
    s2.other_files + s2.valid_files + s2.error_files =
      s.other_files + s.valid_files + s.error_files +
        (if isFile e then 1 else 0) ∧
    (est = true → s2.error_files = s.error_files) ∧
    sumCounts s2.found_types =
      sumCounts s.found_types + (if isFile e then 1 else 0) ∧
    s2.directories = s.directories + (if isFile e then 0 else 1) := by
  cases e with
  | dir =>
    simp only [processEntry] at h
    cases h
    simp [isFile]
  | file f_name probe =>
    simp only [processEntry] at h
    by_cases hv : isValidExt valid (classify f_name)
    · rw [if_pos hv] at h
      cases est with
      | true =>
        rw [if_pos rfl] at h
        cases h
        simp [isFile, sumCounts_bumpType]
        omega
      | false =>
        rw [if_neg (by simp)] at h
        cases hm : read_metadata probe with
        | ok t =>
          rw [hm] at h
          cases h
          simp [isFile, sumCounts_bumpType]
          omega
        | err e2 =>
          rw [hm] at h
          cases h
          simp [isFile, sumCounts_bumpType]
          omega
        | panicked =>
          rw [hm] at h
          exact absurd h (by simp)
    · rw [if_neg hv] at h
      cases h
      simp [isFile, sumCounts_bumpType]
      omega

lemma scanFrom_counts (valid : List Str) (est : Bool) :
    ∀ (es : List Entry) (s s1 : ScanStats),
      scanFrom valid est s es = some s1 →
      s1.other_files + s1.valid_files + s1.error_files =
        s.other_files + s.valid_files + s.error_files + countFiles es ∧
      (est = true → s1.error_files = s.error_files) ∧
      sumCounts s1.found_types = sumCounts s.found_types + countFiles es := by
  intro es
  induction es with
  | nil =>
    intro s s1 h
    rw [scanFrom] at h
    cases h
    simp [countFiles]
  | cons e es ih =>
    intro s s1 h
    rw [scanFrom] at h
    cases hp : processEntry valid est s e with
    | none =>
      rw [hp] at h
      exact absurd h (by simp)
    | some s2 =>
      rw [hp] at h
      obtain ⟨ha, hb, hc⟩ := ih s2 s1 h
      obtain ⟨pa, pb, pc, _⟩ := processEntry_step valid est s s2 e hp
      refine ⟨?_, ?_, ?_⟩
      · rw [ha, pa, countFiles_cons]
        omega
      · intro ht
        rw [hb ht, pb ht]
      · rw [hc, pc, countFiles_cons]
        omega

/-! Claims about the statistics invariants of one pass. -/

/-- Claim C4: for every completed pass,
other_files + valid_files + error_files equals the number of file
(non-directory) entries visited, and in estimate mode error_files is 0. -/
theorem scan_counts_invariant (valid : List Str) (entries : List Entry)
    (estimate : Bool) (stats : ScanStats)
    (h : scan_dirs valid entries estimate = some stats) :
    stats.other_files + stats.valid_files + stats.error_files =
      countFiles entries ∧
    (estimate = true → stats.error_files = 0) := by
  obtain ⟨ha, hb, _⟩ := scanFrom_counts valid estimate entries initStats stats h
  rw [initStats] at ha hb
  simp only at ha hb
  exact ⟨by omega, hb⟩

/-- Claim C5: for every completed pass in either mode, the per-extension
counts sum to the number of file (non-directory) entries visited. -/
theorem extension_counts_total (valid : List Str) (entries : List Entry)
    (estimate : Bool) (stats : ScanStats)
    (h : scan_dirs valid entries estimate = some stats) :
    sumCounts stats.found_types = countFiles entries := by
  obtain ⟨_, _, hc⟩ := scanFrom_counts valid estimate entries initStats stats h
  rw [initStats] at hc
  simpa [sumCounts] using hc

/-! Concrete inputs used by the witnesses. -/

/-- A well-formed tag set with every field the adapter unwraps present. -/
def demoGoodTag : MusicTag :=
  { title := some ("t".toList), artist := some ("a".toList),
    album := some ("b".toList), genre := none, track := some 1 }

/-- A probe outcome for a well-formed file. -/
def demoGoodProbe : ProbeOutcome :=
  .readOk { primary_tag := some demoGoodTag, duration := 180 }

/-- The TrackInfo read_metadata builds from demoGoodProbe. -/
def demoGoodTrack : TrackInfo :=
  { title := "t".toList, artist := "a".toList, album := "b".toList,
    genre := [], track := 1, duration := 180 }

/-- A probe outcome for a corrupt file: the read fails with a codec error. -/
def demoBadProbe : ProbeOutcome := .readErr .codec

/-- Configured valid extensions: just mp3. -/
def demoValid : List Str := ["mp3".toList]

/-- Walker output: one directory, one well-formed mp3, one txt file. -/
def demoEntries : List Entry :=
  [Entry.dir, Entry.file ("a.mp3".toList) demoGoodProbe,
   Entry.file ("b.txt".toList) demoBadProbe]

/-- The statistics either pass produces over demoEntries. -/
def demoStats : ScanStats :=
  { other_files := 1, directories := 1, error_files := 0, valid_files := 1,
    found_types := [("mp3".toList, 1), ("txt".toList, 1)] }

/-- Witness for scan_counts_invariant over demoEntries in estimate mode. -/
theorem scan_counts_invariant_witness :
    demoStats.other_files + demoStats.valid_files + demoStats.error_files =
      countFiles demoEntries ∧
    (true = true → demoStats.error_files = 0) :=
  scan_counts_invariant demoValid demoEntries true demoStats (by decide)

/-- Witness for extension_counts_total over demoEntries in real mode. -/
theorem extension_counts_total_witness :
    sumCounts demoStats.found_types = countFiles demoEntries :=
  extension_counts_total demoValid demoEntries false demoStats (by decide)

/-! Claim about per-file failure isolation in a real pass. -/

/-- Claim C6: in a real pass, a valid-extension file whose extraction fails
adds exactly one to error_files, leaves valid_files unchanged, and the loop
continues with the remaining entries, whatever they are; in particular a
well-formed valid-extension file placed right after the failing one still
adds one to valid_files, and the loop again continues. -/
theorem error_isolation (valid : List Str) (f_name g_name : Str)
    (probe probe2 : ProbeOutcome) (e : LoftyError) (t : TrackInfo)
    (rest rest2 : List Entry) (s : ScanStats)
    (hv : isValidExt valid (classify f_name) = true)
    (he : read_metadata probe = MetaResult.err e)
    (hv2 : isValidExt valid (classify g_name) = true)
    (hok : read_metadata probe2 = MetaResult.ok t) :
    scanFrom valid false s (Entry.file f_name probe :: rest) =
      scanFrom valid false
        { s with found_types := bumpType s.found_types (classify f_name),
                 error_files := s.error_files + 1 } rest ∧
    scanFrom valid false s
        (Entry.file f_name probe :: Entry.file g_name probe2 :: rest2) =
      scanFrom valid false
        { s with found_types :=
                   bumpType (bumpType s.found_types (classify f_name))
                     (classify g_name),
                 error_files := s.error_files + 1,
                 valid_files := s.valid_files + 1 } rest2 := by
  constructor
  · rw [scanFrom]
    simp only [processEntry, hv, he, if_true, Bool.false_eq_true, if_false]
  · rw [scanFrom]
    simp only [processEntry, hv, he, if_true, Bool.false_eq_true, if_false]
    rw [scanFrom]
    simp only [processEntry, hv2, hok, if_true, Bool.false_eq_true, if_false]

/-- Witness for error_isolation: a corrupt mp3 followed by a well-formed mp3
starting from the zero statistics. -/
theorem error_isolation_witness :
    scanFrom demoValid false initStats
        (Entry.file ("c.mp3".toList) demoBadProbe :: []) =
      scanFrom demoValid false
        { initStats with
            found_types := bumpType initStats.found_types (classify ("c.mp3".toList)),
            error_files := initStats.error_files + 1 } [] ∧
    scanFrom demoValid false initStats
        (Entry.file ("c.mp3".toList) demoBadProbe ::
          Entry.file ("d.mp3".toList) demoGoodProbe :: []) =
      scanFrom demoValid false
        { initStats with
            found_types :=
              bumpType (bumpType initStats.found_types (classify ("c.mp3".toList)))
                (classify ("d.mp3".toList)),
            error_files := initStats.error_files + 1,
            valid_files := initStats.valid_files + 1 } [] :=
  error_isolation demoValid ("c.mp3".toList) ("d.mp3".toList) demoBadProbe
    demoGoodProbe .codec demoGoodTrack [] [] initStats
    (by decide) (by decide) (by decide) (by decide)

/-! Claim about agreement between the estimate pass and the real pass. -/

/-- The correspondence maintained between the estimate-mode state and the
real-mode state while both passes walk the same entries. -/
def coupled (a b : ScanStats) : Prop :=
  a.found_types = b.found_types ∧ a.other_files = b.other_files ∧
  a.directories = b.directories ∧
  b.valid_files + b.error_files = a.valid_files + a.error_files

lemma scanFrom_coupled (valid : List Str) :
    ∀ (es : List Entry) (a b r : ScanStats), coupled a b →
      scanFrom valid false b es = some r →
      ∃ e2, scanFrom valid true a es = some e2 ∧ coupled e2 r := by
  intro es
  induction es with
  | nil =>
    intro a b r hc h
    rw [scanFrom] at h
    cases h
    exact ⟨a, rfl, hc⟩
  | cons e es ih =>
    intro a b r hc h
    obtain ⟨h1, h2, h3, h4⟩ := hc
    rw [scanFrom] at h
    rw [scanFrom]
    cases e with
    | dir =>
      simp only [processEntry] at h ⊢
      refine ih _ _ _ ?_ h
      exact ⟨by simp [h1], by simp [h2], by simp [h3], by simp [h4]⟩
    | file f_name probe =>
      by_cases hv : isValidExt valid (classify f_name)
      · cases hm : read_metadata probe with
        | ok t =>
          simp only [processEntry, hv, hm, Bool.false_eq_true, if_false,
            if_true, eq_self_iff_true] at h ⊢
          refine ih _ _ _ ?_ h
          exact ⟨by simp [h1], by simp [h2], by simp [h3], by simp; omega⟩
        | err e2 =>
          simp only [processEntry, hv, hm, Bool.false_eq_true, if_false,
            if_true, eq_self_iff_true] at h ⊢
          refine ih _ _ _ ?_ h
          exact ⟨by simp [h1], by simp [h2], by simp [h3], by simp; omega⟩
        | panicked =>
          simp only [processEntry, hv, hm, Bool.false_eq_true, if_false,
            if_true, eq_self_iff_true] at h
          exact absurd h (by simp)
      · simp only [processEntry, hv, Bool.false_eq_true, if_false,
          ite_false] at h ⊢
        refine ih _ _ _ ?_ h
        exact ⟨by simp [h1], by simp [h2], by simp [h3], by simp; omega⟩

/-- Claim C7: over the same entries, a completed estimate pass and a completed
real pass have identical found_types, other_files and directories, and equal
valid_files exactly when the real pass recorded no extraction failure. -/
theorem passes_agree (valid : List Str) (entries : List Entry)
    (est real1 : ScanStats)
    (hest : scan_dirs valid entries true = some est)
    (hreal : scan_dirs valid entries false = some real1) :
    real1.found_types = est.found_types ∧
    real1.other_files = est.other_files ∧
    real1.directories = est.directories ∧
    (real1.valid_files = est.valid_files ↔ real1.error_files = 0) := by
  obtain ⟨e2, he2, hc⟩ :=
    scanFrom_coupled valid entries initStats initStats real1
      ⟨rfl, rfl, rfl, rfl⟩ hreal
  rw [scan_dirs] at hest hreal
  rw [hest] at he2
  have heq : est = e2 := Option.some.inj he2
  subst heq
  obtain ⟨h1, h2, h3, h4⟩ := hc
  have herr : est.error_files = 0 := by
    obtain ⟨_, hb, _⟩ := scanFrom_counts valid true entries initStats est hest
    rw [hb rfl]
    rfl
  exact ⟨h1.symm, h2.symm, h3.symm, by omega⟩

/-- Walker output with one corrupt mp3 and one well-formed mp3, over which the
estimate pass and the real pass disagree on valid_files. -/
def demoErrEntries : List Entry :=
  [Entry.file ("a.mp3".toList) demoBadProbe,
   Entry.file ("b.mp3".toList) demoGoodProbe]

/-- The estimate-pass statistics over demoErrEntries. -/
def demoErrEst : ScanStats :=
  { other_files := 0, directories := 0, error_files := 0, valid_files := 2,
    found_types := [("mp3".toList, 2)] }

/-- The real-pass statistics over demoErrEntries. -/
def demoErrReal : ScanStats :=
  { other_files := 0, directories := 0, error_files := 1, valid_files := 1,
    found_types := [("mp3".toList, 2)] }

/-- Witness for passes_agree over demoErrEntries. -/
theorem passes_agree_witness :
    demoErrReal.found_types = demoErrEst.found_types ∧
    demoErrReal.other_files = demoErrEst.other_files ∧
    demoErrReal.directories = demoErrEst.directories ∧
    (demoErrReal.valid_files = demoErrEst.valid_files ↔
      demoErrReal.error_files = 0) :=
  passes_agree demoValid demoErrEntries demoErrEst demoErrReal
    (by decide) (by decide)

end TagTest
